import Mathlib

/-!
Verification of the resumable concurrent upload orchestrator
(google-takeout-s3-importer) against its natural-language specification.

The Go source is shallowly embedded: pure computations become Lean
functions, the retry loop becomes a fuel-indexed recursion (the fuel is
the number of retries still allowed, so it matches the loop bound
`attempt <= MaxRetries`), `time.Duration` / float64 arithmetic in the
backoff computation is modelled over `ℚ`, contexts become explicit
oracles saying what `ctx.Err()` returns at each check point, and the
worker pool becomes a labelled transition system on its observable state
(channel occupancy and WaitGroup counter).
-/

namespace GTS3

/-! ## Go error values

`error` values as the retry policy observes them: `errors.Is(err,
context.Canceled)`, `errors.Is(err, context.DeadlineExceeded)` and the
message returned by `err.Error()`. -/

/-- A Go `error` value as seen by `IsRetryable`: either one of the two
context sentinel errors or an ordinary error carrying its message. -/
inductive GoErr where
  | ctxCanceled
  | ctxDeadlineExceeded
  | other (msg : String)
deriving DecidableEq

/-- `err.Error()` for the modelled error values (the two sentinel texts
are the ones the Go standard library uses). -/
def GoErr.message : GoErr → String
  | .ctxCanceled => "context canceled"
  | .ctxDeadlineExceeded => "context deadline exceeded"
  | .other msg => msg

/-- Whether `pat` occurs at the head of `hay` (character lists). -/
def charsLeadWith : List Char → List Char → Bool
  | [], _ => true
  | _ :: _, [] => false
  | a :: as, b :: bs => a == b && charsLeadWith as bs

/-- Whether `pat` occurs anywhere in `hay` (character lists). -/
def charsContain : List Char → List Char → Bool
  | hay, pat =>
    if charsLeadWith pat hay then true
    else
      match hay with
      | [] => false
      | _ :: rest => charsContain rest pat

/-- `strings.Contains s pat`: true iff `pat` occurs in `s`. -/
def containsSubstr (s pat : String) : Bool :=
  charsContain s.data pat.data

/-- ASCII lower-casing of one character (the classification patterns are
all ASCII, so this matches `strings.ToLower` on them). -/
def charToLower (c : Char) : Char :=
  if 65 ≤ c.toNat ∧ c.toNat ≤ 90 then Char.ofNat (c.toNat + 32) else c

/-- `strings.ToLower` restricted to ASCII letters. -/
def lowerStr (s : String) : String :=
  String.mk (s.data.map charToLower)

/-! ## Retry policy (internal/uploader/retry.go) -/

/-- `RetryConfig` from retry.go. Durations (`time.Duration`, int64
nanoseconds fed to float64 arithmetic) are modelled in `ℚ`;
`RetryableErrors` is a `map[string]bool` whose keys alone are consulted
(`for errCode := range rc.RetryableErrors`), so it is kept as the list of
its keys. -/
structure RetryConfig where
  maxRetries : Nat
  initialBackoff : ℚ
  maxBackoff : ℚ
  backoffFactor : ℚ
  retryableErrors : List String

/-- The key set of `defaultRetryableErrors()` from retry.go. -/
def defaultRetryableErrors : List String :=
  ["RequestTimeout", "RequestTimeTooSkewed", "InternalError", "SlowDown",
   "OperationAborted", "ConnectionError", "NetworkingError",
   "ThrottlingException", "ServiceUnavailable", "RequestLimitExceeded",
   "BandwidthLimitExceeded", "IDPCommunicationError", "KMSTemporaryFailure",
   "KMSThrottlingException", "PermanentRedirect", "TemporaryRedirect",
   "ServerSideEncryptionConfigurationNotFoundError"]

/-- `DefaultRetryConfig()` from retry.go (1s, 1min, factor 2, five
retries); durations in nanoseconds. -/
def DefaultRetryConfig : RetryConfig :=
  { maxRetries := 5
    initialBackoff := 1000000000
    maxBackoff := 60000000000
    backoffFactor := 2
    retryableErrors := defaultRetryableErrors }

/-- The lower-cased transient substrings checked by `IsRetryable`. -/
def transientPatterns : List String :=
  ["timeout", "connection", "reset", "broken pipe", "network", "unavailable"]

/-- `RetryConfig.IsRetryable` from retry.go, for a non-nil error: context
cancellation and deadline are never retryable; otherwise an error is
retryable when its message contains a configured error code or one of the
lower-cased transient patterns. -/
def RetryConfig.IsRetryable (rc : RetryConfig) (e : GoErr) : Bool :=
  match e with
  | .ctxCanceled => false
  | .ctxDeadlineExceeded => false
  | .other _ =>
    if rc.retryableErrors.any (fun code => containsSubstr e.message code) then
      true
    else
      let lowerErr := lowerStr e.message
      transientPatterns.any (fun pat => containsSubstr lowerErr pat)

/-- A Go `context.Context` as the retry loop observes it: what
`ctx.Err()` returns at the check before attempt `i`, and whether
`ctx.Done()` fires during the backoff sleep that follows attempt `i`
(and with which error). -/
structure Ctx where
  errAt : Nat → Option GoErr
  sleepInterrupt : Nat → Option GoErr

/-- A context that is never cancelled. -/
def ctxLive : Ctx := ⟨fun _ => none, fun _ => none⟩

/-- The possible results of `RetryWithBackoff`, keeping the data that the
Go `fmt.Errorf` wrapping records. -/
inductive RetryOutcome where
  | ok
  | canceledBefore (op : String) (e : GoErr)
  | nonRetryable (e : GoErr)
  | canceledDuringSleep (op : String) (e : GoErr)
  | failedAfter (op : String) (attempts : Nat) (e : GoErr)
deriving DecidableEq

/-- The error text each outcome renders to, following the exact
`fmt.Errorf` format strings in retry.go (`%w` renders the wrapped
message). `ok` renders to the empty string (a nil error). -/
def RetryOutcome.render : RetryOutcome → String
  | .ok => ""
  | .canceledBefore op e => op ++ " canceled: " ++ e.message
  | .nonRetryable e => e.message
  | .canceledDuringSleep op e => op ++ " canceled during retry: " ++ e.message
  | .failedAfter op attempts e =>
      op ++ " failed after " ++ toString attempts ++ " attempts: " ++ e.message

/-- The body of `RetryWithBackoff`'s `for` loop. `attempt` is the loop
variable; `fuel` is the number of iterations still allowed after this one
(so `attempt + fuel = MaxRetries` throughout, and `fuel = 0` is exactly
the `attempt == config.MaxRetries` break). `fn i` is what the `i`-th
invocation of the wrapped operation returns (`none` = Go `nil`). The
second component of the result counts how many times `fn` was invoked. -/
def retryAux (ctx : Ctx) (op : String) (fn : Nat → Option GoErr)
    (rc : RetryConfig) : Nat → Nat → RetryOutcome × Nat
  | attempt, fuel =>
    match ctx.errAt attempt with
    | some e => (.canceledBefore op e, 0)
    | none =>
      match fn attempt with
      | none => (.ok, 1)
      | some e =>
        if rc.IsRetryable e then
          match fuel with
          | 0 => (.failedAfter op attempt e, 1)
          | fuel' + 1 =>
            match ctx.sleepInterrupt attempt with
            | some ce => (.canceledDuringSleep op ce, 1)
            | none =>
              let r := retryAux ctx op fn rc (attempt + 1) fuel'
              (r.1, r.2 + 1)
        else
          (.nonRetryable e, 1)

/-- `RetryWithBackoff` from retry.go: run the loop from `attempt = 0`
with `MaxRetries` further iterations allowed. -/
def RetryWithBackoff (ctx : Ctx) (op : String) (fn : Nat → Option GoErr)
    (rc : RetryConfig) : RetryOutcome × Nat :=
  retryAux ctx op fn rc 0 rc.maxRetries

/-- `getBackoffDuration` from retry.go over `ℚ`: exponential term, then
±20% jitter (`rand.Float64()` becomes the parameter `randFloat`, drawn
from `[0,1)`), then the clamp to `MaxBackoff`. The final float64 →
`time.Duration` truncation is not modelled. -/
def getBackoffDuration (attempt : Nat) (rc : RetryConfig) (randFloat : ℚ) : ℚ :=
  let backoff := rc.initialBackoff * rc.backoffFactor ^ attempt
  let jitter := randFloat * (2 / 5) - 1 / 5
  let backoff2 := backoff * (1 + jitter)
  if backoff2 > rc.maxBackoff then rc.maxBackoff else backoff2

/-- Modelled from the spec: the backoff formula as §4.3 words it —
`min(MaxBackoff, InitialBackoff * BackoffFactor^attempt)` computed first,
with the ±20% jitter applied after that clamp. Stated only to be compared
with `getBackoffDuration`, which is translated from the source. -/
def specBackoffDuration (attempt : Nat) (rc : RetryConfig) (randFloat : ℚ) : ℚ :=
  let clamped := min rc.maxBackoff (rc.initialBackoff * rc.backoffFactor ^ attempt)
  let jitter := randFloat * (2 / 5) - 1 / 5
  clamped * (1 + jitter)

/-! ### Retry lemmas -/

/-- If the context is never cancelled and every invocation fails with a
retryable error, the loop starting at `attempt` with `fuel` remaining
iterations performs `fuel + 1` invocations and exits through the
`attempt == MaxRetries` break, recording `attempt + fuel`. -/
theorem retryAux_exhausts (ctx : Ctx) (op : String) (fn : Nat → Option GoErr)
    (rc : RetryConfig) (e : Nat → GoErr)
    (hc : ∀ i, ctx.errAt i = none) (hs : ∀ i, ctx.sleepInterrupt i = none)
    (hf : ∀ i, fn i = some (e i)) (hr : ∀ i, rc.IsRetryable (e i) = true) :
    ∀ fuel attempt, retryAux ctx op fn rc attempt fuel =
      (.failedAfter op (attempt + fuel) (e (attempt + fuel)), fuel + 1) := by
  intro fuel
  induction fuel with
  | zero =>
    intro attempt
    simp [retryAux, hc attempt, hf attempt, hr attempt]
  | succ fuel' ih =>
    intro attempt
    have h := ih (attempt + 1)
    have heq : attempt + 1 + fuel' = attempt + (fuel' + 1) := by omega
    simp only [retryAux, hc attempt, hf attempt, hr attempt, if_true,
      hs attempt, h, heq]

/-- C4 (amended): an always-transiently-failing operation under a live
context is invoked exactly `k + 1` times when `MaxRetries = k`, and the
returned wrapping error names the operation together with an attempt
count of `k` (the Go loop breaks while `attempt == MaxRetries`, before
the final increment, so the count in the message is `k`, not `k + 1`). -/
theorem retryWithBackoff_exhausts_count (ctx : Ctx) (op : String)
    (fn : Nat → Option GoErr) (rc : RetryConfig) (e : Nat → GoErr) (k : Nat)
    (hk : rc.maxRetries = k)
    (hc : ∀ i, ctx.errAt i = none) (hs : ∀ i, ctx.sleepInterrupt i = none)
    (hf : ∀ i, fn i = some (e i)) (hr : ∀ i, rc.IsRetryable (e i) = true) :
    RetryWithBackoff ctx op fn rc = (.failedAfter op k (e k), k + 1) := by
  have h := retryAux_exhausts ctx op fn rc e hc hs hf hr k 0
  simpa [RetryWithBackoff, hk] using h

/-- A concrete always-retryable error used in the concrete evaluations. -/
def errServiceUnavailable : GoErr := .other "ServiceUnavailable"

/-- A small concrete retry configuration with `MaxRetries = 1`. -/
def rcK1 : RetryConfig :=
  { maxRetries := 1
    initialBackoff := 1
    maxBackoff := 10
    backoffFactor := 2
    retryableErrors := ["ServiceUnavailable"] }

/-- C4 counterexample: with `MaxRetries = k = 1` and an operation that
always fails with a classified-transient error, `RetryWithBackoff`
invokes the operation `2 = k + 1` times (as the claim says), but the
wrapping error it returns names an attempt count of `1 = k`, not
`k + 1 = 2` — its rendered text is "... failed after 1 attempts: ...". -/
theorem retry_attempt_count_counterexample :
    RetryWithBackoff ctxLive "upload" (fun _ => some errServiceUnavailable) rcK1 =
      (.failedAfter "upload" 1 errServiceUnavailable, 2) ∧
    (RetryWithBackoff ctxLive "upload" (fun _ => some errServiceUnavailable) rcK1).1.render =
      "upload failed after 1 attempts: ServiceUnavailable" ∧
    (1 : Nat) ≠ 1 + 1 := by
  refine ⟨?_, ?_, by decide⟩
  · decide
  · decide

/-- Witness for C4's amended theorem at `k = 1`: its hypotheses hold for
the concrete live context, constant failing operation and `rcK1`, and the
conclusion evaluates as stated. -/
theorem retry_exhausts_witness :
    RetryWithBackoff ctxLive "upload" (fun _ => some errServiceUnavailable) rcK1 =
      (.failedAfter "upload" 1 errServiceUnavailable, 2) := by
  have hre : rcK1.IsRetryable errServiceUnavailable = true := by decide
  have h := retryWithBackoff_exhausts_count ctxLive "upload"
    (fun _ => some errServiceUnavailable) rcK1 (fun _ => errServiceUnavailable) 1
    rfl (fun _ => rfl) (fun _ => rfl) (fun _ => rfl) (fun _ => hre)
  simpa using h

/-- C10: if the governing context is already cancelled (or past its
deadline) when `RetryWithBackoff` is entered — `ctx.Err()` is non-nil at
the check before attempt 0 — the function returns the error that names
the operation and wraps the context error, and the wrapped operation is
invoked zero times. -/
theorem retryWithBackoff_precancelled (ctx : Ctx) (op : String)
    (fn : Nat → Option GoErr) (rc : RetryConfig) (e : GoErr)
    (h : ctx.errAt 0 = some e) :
    RetryWithBackoff ctx op fn rc = (.canceledBefore op e, 0) ∧
    (RetryWithBackoff ctx op fn rc).1.render = op ++ " canceled: " ++ e.message := by
  have hmain : RetryWithBackoff ctx op fn rc = (.canceledBefore op e, 0) := by
    unfold RetryWithBackoff retryAux
    rw [h]
  refine ⟨hmain, ?_⟩
  rw [hmain]
  rfl

/-- A context that is cancelled from the start. -/
def ctxCancelledNow : Ctx := ⟨fun _ => some .ctxCanceled, fun _ => some .ctxCanceled⟩

/-- Witness for C10 at a concrete pre-cancelled context: zero invocations
and the wrapping "canceled" error. -/
theorem retryWithBackoff_precancelled_witness :
    RetryWithBackoff ctxCancelledNow "upload"
      (fun _ => some errServiceUnavailable) rcK1 =
      (.canceledBefore "upload" .ctxCanceled, 0) ∧
    (RetryWithBackoff ctxCancelledNow "upload"
      (fun _ => some errServiceUnavailable) rcK1).1.render =
      "upload canceled: context canceled" :=
  retryWithBackoff_precancelled ctxCancelledNow "upload"
    (fun _ => some errServiceUnavailable) rcK1 .ctxCanceled rfl

/-! ### Backoff shape (C9) -/

/-- A concrete configuration separating the two clamp/jitter orders:
exponential term 100, `MaxBackoff` 50. -/
def rcClamp : RetryConfig :=
  { maxRetries := 1
    initialBackoff := 100
    maxBackoff := 50
    backoffFactor := 2
    retryableErrors := [] }

/-- C9 counterexample: at attempt 0 with `randFloat = 0` (jitter −20%),
the code jitters the exponential term first (100 → 80) and only then
clamps (→ 50), while the claimed order — clamp before jitter — yields
`min(50,100) * 0.8 = 40`; the two disagree, so the computed duration does
not equal the claimed formula. -/
theorem backoff_clamp_order_counterexample :
    getBackoffDuration 0 rcClamp 0 = 50 ∧
    specBackoffDuration 0 rcClamp 0 = 40 ∧
    getBackoffDuration 0 rcClamp 0 ≠ specBackoffDuration 0 rcClamp 0 := by
  refine ⟨?_, ?_, ?_⟩ <;> norm_num [getBackoffDuration, specBackoffDuration, rcClamp]

/-- C9 (amended): the computed backoff equals
`min(MaxBackoff, (InitialBackoff * BackoffFactor^attempt) * (1 + jitter))`
— the clamp to `MaxBackoff` is applied after the ±20% jitter, to the
jittered term — and, for `randFloat ∈ [0,1)` and non-negative
configuration values, the result is never negative. -/
theorem getBackoffDuration_eq_min_and_nonneg (attempt : Nat) (rc : RetryConfig)
    (randFloat : ℚ) (hr0 : 0 ≤ randFloat) (hr1 : randFloat < 1)
    (hi : 0 ≤ rc.initialBackoff) (hb : 0 ≤ rc.backoffFactor)
    (hm : 0 ≤ rc.maxBackoff) :
    getBackoffDuration attempt rc randFloat =
      min rc.maxBackoff
        ((rc.initialBackoff * rc.backoffFactor ^ attempt) *
          (1 + (randFloat * (2 / 5) - 1 / 5))) ∧
    0 ≤ getBackoffDuration attempt rc randFloat := by
  have hexp : 0 ≤ rc.initialBackoff * rc.backoffFactor ^ attempt :=
    mul_nonneg hi (pow_nonneg hb attempt)
  have hjit : 0 ≤ 1 + (randFloat * (2 / 5) - 1 / 5) := by linarith
  have hval : 0 ≤ (rc.initialBackoff * rc.backoffFactor ^ attempt) *
      (1 + (randFloat * (2 / 5) - 1 / 5)) := mul_nonneg hexp hjit
  constructor
  · simp only [getBackoffDuration]
    split
    · rename_i hgt
      rw [min_eq_left (le_of_lt hgt)]
    · rename_i hle
      push_neg at hle
      rw [min_eq_right hle]
  · simp only [getBackoffDuration]
    split
    · exact hm
    · exact hval

/-- Witness for C9's amended theorem at attempt 1, the default
configuration and `randFloat = 1/2` (jitter 0): the computed backoff is
the 2-second exponential term, which the claimed min-form also gives, and
it is non-negative. -/
theorem getBackoffDuration_witness :
    getBackoffDuration 1 DefaultRetryConfig (1 / 2) =
      min DefaultRetryConfig.maxBackoff
        ((DefaultRetryConfig.initialBackoff * DefaultRetryConfig.backoffFactor ^ 1) *
          (1 + ((1 / 2 : ℚ) * (2 / 5) - 1 / 5))) ∧
    0 ≤ getBackoffDuration 1 DefaultRetryConfig (1 / 2) := by
  have h := getBackoffDuration_eq_min_and_nonneg 1 DefaultRetryConfig (1 / 2)
    (by norm_num) (by norm_num) (by norm_num [DefaultRetryConfig])
    (by norm_num [DefaultRetryConfig]) (by norm_num [DefaultRetryConfig])
  exact h

/-! ## Worker pool (internal/worker/pool.go)

The pool's observable state: `running` is the occupancy of the buffered
channel `workers` (a slot is acquired by `Submit` before the task
goroutine starts and released by the goroutine's `defer` when the task
exits, so a running task always holds a slot), and `wgCount` is the
counter of the `sync.WaitGroup` field `wg`. The source's `Submit` never
calls `wg.Add` and nothing calls `wg.Done`, so no transition changes
`wgCount`; `Wait()` runs `wg.Wait()`, which returns as soon as the
counter is zero. -/

/-- Observable state of a `worker.Pool`. -/
structure PoolState where
  running : Nat
  wgCount : Nat
deriving DecidableEq

/-- The state `NewPool(size)` returns: empty channel, zero WaitGroup
counter (the capacity is carried separately by the step relation). -/
def NewPool : PoolState := ⟨0, 0⟩

/-- The transitions a pool of capacity `C` can take, read off pool.go:
`submit` is `Submit`'s channel send `p.workers <- struct{}{}` completing
(possible only when the channel has room, `running < C`) followed by the
spawned goroutine entering the task; `finish` is a task exiting and its
`defer` receiving from the channel. Neither touches `wgCount`, because
`Submit` contains no `wg.Add` and the task wrapper contains no
`wg.Done`. -/
inductive PoolStep (C : Nat) : PoolState → PoolState → Prop
  | submit (s : PoolState) : s.running < C → PoolStep C s ⟨s.running + 1, s.wgCount⟩
  | finish (s : PoolState) (n : Nat) : s.running = n + 1 → PoolStep C s ⟨n, s.wgCount⟩

/-- States reachable by a pool of capacity `C` from `NewPool`. -/
def PoolReach (C : Nat) (s : PoolState) : Prop :=
  Relation.ReflTransGen (PoolStep C) NewPool s

/-- `Pool.Wait()` is `wg.Wait()`: it returns (immediately) exactly when
the WaitGroup counter is zero. -/
def wgWaitReturns (s : PoolState) : Bool :=
  s.wgCount == 0

/-- C6: in every state a pool of capacity `C` can reach, at most `C`
tasks hold worker slots, and hence at most `C` submitted tasks are
running concurrently, whatever the pattern of `Submit` calls and task
completions. -/
theorem pool_concurrency_bound (C : Nat) (s : PoolState)
    (h : PoolReach C s) : s.running ≤ C := by
  induction h with
  | refl => exact Nat.zero_le C
  | tail _ step ih =>
    cases step with
    | submit hlt => exact hlt
    | finish n hn =>
      show n ≤ C
      omega

/-- Witness for C6: the state with one running task is reachable by a
pool of capacity 2 (one `Submit`), and the bound evaluates there. -/
theorem pool_concurrency_bound_witness :
    PoolReach 2 ⟨1, 0⟩ ∧ (1 : Nat) ≤ 2 := by
  have hreach : PoolReach 2 ⟨1, 0⟩ :=
    Relation.ReflTransGen.single (PoolStep.submit NewPool (by decide))
  exact ⟨hreach, pool_concurrency_bound 2 ⟨1, 0⟩ hreach⟩

/-- C1 is false of the code (code bug): a pool of capacity 1 with one
submitted task still running is reachable (`running = 1`), yet its
WaitGroup counter is 0 — `Submit` never calls `wg.Add` — so `Wait()`
returns immediately while the submitted task has not completed,
contradicting both the claim and the source's own comment "Wait waits
for all tasks to complete". -/
theorem pool_wait_returns_while_task_running :
    PoolReach 1 ⟨1, 0⟩ ∧ 0 < (⟨1, 0⟩ : PoolState).running ∧
    wgWaitReturns ⟨1, 0⟩ = true := by
  refine ⟨Relation.ReflTransGen.single (PoolStep.submit NewPool (by decide)), ?_, rfl⟩
  decide

/-! ## Journal (internal/journal/journal.go)

The entry map `Uploads map[string]UploadEntry` is modelled as an
association list with insert-overwrite semantics; `time.Time` values
become `Nat` instants. The journal's `sync.Mutex` field `mu` is modelled
explicitly by `muLocked`, because `Clear` and `Save` both acquire it:
`mutexLock` on an already-held (non-reentrant) mutex from the same call
chain blocks forever, which the embedding renders as `none`. -/

/-- `UploadEntry` from journal.go. -/
structure UploadEntry where
  path : String
  uploaded : Bool
  timestamp : Nat
  archive : String
deriving DecidableEq

/-- Lookup in the `Uploads` map. -/
def mapLookup (m : List (String × UploadEntry)) (k : String) : Option UploadEntry :=
  match m.find? (fun p => p.1 == k) with
  | some p => some p.2
  | none => none

/-- Insert-or-overwrite in the `Uploads` map. -/
def mapInsert (m : List (String × UploadEntry)) (k : String) (v : UploadEntry) :
    List (String × UploadEntry) :=
  (m.filter (fun p => p.1 != k)) ++ [(k, v)]

/-- The journal state: the mutex, the entry map, and the rate-limiting
fields `lastSaveTime`, `saveInterval` and `batchCount`. -/
structure Journal where
  muLocked : Bool
  uploads : List (String × UploadEntry)
  lastSaveTime : Nat
  saveInterval : Nat
  batchCount : Nat
deriving DecidableEq

/-- `journal.New`: unlocked mutex, empty map, 30-second save interval
(in seconds here; only its relation to elapsed time matters). -/
def Journal.new : Journal :=
  { muLocked := false, uploads := [], lastSaveTime := 0, saveInterval := 30,
    batchCount := 0 }

/-- `j.mu.Lock()`: acquires a free mutex; on a mutex already held along
the same call chain it blocks forever (Go's `sync.Mutex` is not
reentrant), modelled as `none`. -/
def mutexLock (j : Journal) : Option Journal :=
  if j.muLocked then none else some { j with muLocked := true }

/-- `j.mu.Unlock()`. -/
def mutexUnlock (j : Journal) : Journal :=
  { j with muLocked := false }

/-- `Journal.IsUploaded`: lock, O(1) lookup, unlock — the balanced
lock/unlock pair around a pure read leaves only the lookup. -/
def Journal.IsUploaded (j : Journal) (path : String) : Bool :=
  match mapLookup j.uploads path with
  | some entry => entry.uploaded
  | none => false

/-- `Journal.MarkUploaded` at instant `now`: insert/overwrite an
`uploaded=true` entry under the lock; every 100th mark resets the batch
counter and fires a background best-effort `go j.Save()`, reported in the
returned flag. -/
def Journal.MarkUploaded (j : Journal) (path archive : String) (now : Nat) :
    Journal × Bool :=
  let j1 := { j with uploads := mapInsert j.uploads path ⟨path, true, now, archive⟩ }
  if j1.batchCount + 1 ≥ 100 then
    ({ j1 with batchCount := 0 }, true)
  else
    ({ j1 with batchCount := j1.batchCount + 1 }, false)

/-- `Journal.Save` at instant `now`: acquire `j.mu` (deadlock = `none`),
then either skip the write because a save happened within `saveInterval`
and the map is non-empty (the rate limit), or write the file. The
returned flag says whether the file was written; directory creation,
marshalling and the write itself are assumed to succeed. -/
def Journal.Save (j : Journal) (now : Nat) : Option (Journal × Bool) :=
  (mutexLock j).map (fun j1 =>
    if now - j1.lastSaveTime < j1.saveInterval ∧ 0 < j1.uploads.length then
      (mutexUnlock j1, false)
    else
      (mutexUnlock { j1 with lastSaveTime := now }, true))

/-- `Journal.Clear` at instant `now`: acquire `j.mu` (held until the
deferred unlock), empty the map, then call `j.Save()` — which tries to
acquire `j.mu` again while this call still holds it. -/
def Journal.Clear (j : Journal) (now : Nat) : Option Journal :=
  (mutexLock j).bind (fun j1 =>
    let j2 := { j1 with uploads := [] }
    (Journal.Save j2 now).map (fun r => mutexUnlock r.1))

/-- C7 is false of the code (code bug): for every journal whose mutex is
free, `Clear()` self-deadlocks — it locks `j.mu` and then calls
`j.Save()`, which tries to lock the same non-reentrant mutex — so
`Clear()` never terminates, never persists the empty state, and holds
the journal's lock across the attempted I/O. -/
theorem journal_clear_deadlocks (j : Journal) (now : Nat)
    (h : j.muLocked = false) : Journal.Clear j now = none := by
  simp [Journal.Clear, Journal.Save, mutexLock, h]

/-- Witness for C7's theorem: a freshly created journal's `Clear()`
deadlocks. -/
theorem journal_clear_deadlocks_witness :
    Journal.new.muLocked = false ∧ Journal.Clear Journal.new 0 = none :=
  ⟨rfl, journal_clear_deadlocks Journal.new 0 rfl⟩

/-! ## File upload driver (internal/uploader, part_005 version)

The per-file pipeline `Uploader.uploadFile` and the submission loop
`Uploader.Run`, from the uploader version that is consistent with the
rest of the sources (two-argument `MarkUploaded`, per-archive fields,
mutex-collected errors). External collaborators are oracles: the result
of the `i`-th invocation of each fallible call on a given path. -/

/-- `googletakeout.MediaFile`: the transfer unit. `metadata` is the
`ToMap()` view of `file.Metadata` (`none` = nil). -/
structure MediaFile where
  path : String
  archive : String
  size : Int
  metadata : Option (List (String × String))
deriving DecidableEq

/-- The upload-relevant part of `config.UploadConfig`. -/
structure UploadConfig where
  skipExisting : Bool
  dryRun : Bool
  preserveMetadata : Bool
deriving DecidableEq

/-- The external collaborators as deterministic oracles. For each
fallible operation, the `Nat` argument is the invocation index on that
path (the retry loop may invoke it several times); `objectExists` gives
the `(bool, error)` pair of `s3Client.ObjectExists`, `openFile` and
`uploadObject` give the error results of `takeout.OpenFile` and
`s3Client.UploadFile` (`none` = success). `getMetadata` is
`takeout.GetMetadata(path).ToMap()` (`none` = nil metadata), and
`fileCtx` is the per-file context `context.WithTimeout(u.ctx, 30*time.Minute)`. -/
structure UpEnv where
  objectExists : String → Nat → Bool × Option GoErr
  openFile : String → Nat → Option GoErr
  uploadObject : String → Int → List (String × String) → String → Nat → Option GoErr
  getMetadata : String → Option (List (String × String))
  fileCtx : String → Ctx

/-- `filepath.Ext` on the reversed character list: scan back for the
final dot of the final path element. -/
def extRev : List Char → List Char → Option String
  | [], _ => none
  | c :: rest, acc =>
    if c == '.' then some (String.mk ('.' :: acc))
    else if c == '/' then none
    else extRev rest (c :: acc)

/-- `filepath.Ext(path)`: the suffix beginning at the final dot in the
final element of `path`, or the empty string. -/
def filepathExt (path : String) : String :=
  match extRev path.data.reverse [] with
  | some s => s
  | none => ""

/-- The `switch ext` content-type table from `uploadFile`. -/
def extContentType (ext : String) : String :=
  if ext == ".jpg" ∨ ext == ".jpeg" then "image/jpeg"
  else if ext == ".png" then "image/png"
  else if ext == ".gif" then "image/gif"
  else if ext == ".mp4" then "video/mp4"
  else if ext == ".mov" then "video/quicktime"
  else if ext == ".heic" then "image/heic"
  else if ext == ".3gp" then "video/3gpp"
  else if ext == ".webp" then "image/webp"
  else "application/octet-stream"

/-- Content-type resolution from `uploadFile`: extension table first,
then the `Content-Type` key of `file.Metadata.ToMap()` when present and
non-empty. -/
def resolveContentType (file : MediaFile) : String :=
  let ct := extContentType (lowerStr (filepathExt file.path))
  match file.metadata with
  | none => ct
  | some m =>
    match m.lookup "Content-Type" with
    | some v => if v != "" then v else ct
    | none => ct

/-- Metadata assembly from `uploadFile`: empty unless `PreserveMetadata`
and the collaborator returns metadata, in which case a missing `Source`
key is filled with "Google Takeout". -/
def assembleMetadata (cfg : UploadConfig) (env : UpEnv) (path : String) :
    List (String × String) :=
  if cfg.preserveMetadata then
    match env.getMetadata path with
    | some m =>
      if (m.lookup "Source").isSome then m else m ++ [("Source", "Google Takeout")]
    | none => []
  else []

/-- The outcome of one `uploadFile` call: early exit to skipped
(remote-exists hit), the success exit (dry-run or real upload, journal
marked), or a failure wrapped with the stage's `fmt.Errorf` text. -/
inductive FileOutcome where
  | skippedExisting
  | recorded
  | failed (stage : String) (r : RetryOutcome)
deriving DecidableEq

/-- What one `uploadFile` call did: its outcome, its increments to the
atomic statistics counters, and how many invocations of each external
operation it performed. -/
structure FileReport where
  outcome : FileOutcome
  skippedDelta : Nat
  uploadedDelta : Nat
  uploadedBytesDelta : Int
  existsCalls : Nat
  openCalls : Nat
  uploadCalls : Nat
deriving DecidableEq

/-- The part of `uploadFile` after the skip-existing gate: dry-run
branch, metadata/content-type assembly, open through the retry policy,
upload through the retry policy, statistics and journal mark. -/
def uploadFileTail (cfg : UploadConfig) (env : UpEnv) (rc : RetryConfig)
    (j : Journal) (file : MediaFile) (now : Nat) (existsCalls : Nat) :
    FileReport × Journal :=
  if cfg.dryRun then
    ({ outcome := .recorded, skippedDelta := 0, uploadedDelta := 1,
       uploadedBytesDelta := file.size, existsCalls := existsCalls,
       openCalls := 0, uploadCalls := 0 },
     (j.MarkUploaded file.path file.archive now).1)
  else
    let metadata := assembleMetadata cfg env file.path
    let contentType := resolveContentType file
    let ropen := RetryWithBackoff (env.fileCtx file.path)
      ("Open file " ++ file.path) (fun i => env.openFile file.path i) rc
    match ropen.1 with
    | .ok =>
      let rup := RetryWithBackoff (env.fileCtx file.path)
        ("Upload " ++ file.path ++ " to S3")
        (fun i => env.uploadObject file.path file.size metadata contentType i) rc
      match rup.1 with
      | .ok =>
        ({ outcome := .recorded, skippedDelta := 0, uploadedDelta := 1,
           uploadedBytesDelta := file.size, existsCalls := existsCalls,
           openCalls := ropen.2, uploadCalls := rup.2 },
         (j.MarkUploaded file.path file.archive now).1)
      | bad =>
        ({ outcome := .failed "failed to upload file" bad, skippedDelta := 0,
           uploadedDelta := 0, uploadedBytesDelta := 0,
           existsCalls := existsCalls, openCalls := ropen.2,
           uploadCalls := rup.2 }, j)
    | bad =>
      ({ outcome := .failed "failed to open file" bad, skippedDelta := 0,
         uploadedDelta := 0, uploadedBytesDelta := 0,
         existsCalls := existsCalls, openCalls := ropen.2, uploadCalls := 0 }, j)

/-- `Uploader.uploadFile`: when `SkipExisting` is set, check remote
existence through the retry policy; a check error fails the file, a hit
skips it (incrementing the skipped counter, reporting progress, and
leaving the journal untouched); otherwise continue with
`uploadFileTail`. The `exists` boolean is the one assigned by the last
invocation of the closure. -/
def Uploader.uploadFile (cfg : UploadConfig) (env : UpEnv) (rc : RetryConfig)
    (j : Journal) (file : MediaFile) (now : Nat) : FileReport × Journal :=
  if cfg.skipExisting then
    let r := RetryWithBackoff (env.fileCtx file.path)
      ("Check existence of " ++ file.path)
      (fun i => (env.objectExists file.path i).2) rc
    match r.1 with
    | .ok =>
      if (env.objectExists file.path (r.2 - 1)).1 then
        ({ outcome := .skippedExisting, skippedDelta := 1, uploadedDelta := 0,
           uploadedBytesDelta := 0, existsCalls := r.2, openCalls := 0,
           uploadCalls := 0 }, j)
      else
        uploadFileTail cfg env rc j file now r.2
    | bad =>
      ({ outcome := .failed "failed to check if file exists" bad,
         skippedDelta := 0, uploadedDelta := 0, uploadedBytesDelta := 0,
         existsCalls := r.2, openCalls := 0, uploadCalls := 0 }, j)
  else
    uploadFileTail cfg env rc j file now 0

/-- One entry of the run's trace: a path skipped by the journal check in
the submission loop (never submitted to the worker pool), or a path
submitted as a pool task together with what its `uploadFile` call did. -/
inductive RunItem where
  | preSkipped (path : String)
  | ran (path : String) (report : FileReport)
deriving DecidableEq

/-- The path an item concerns. -/
def RunItem.pathOf : RunItem → String
  | .preSkipped p => p
  | .ran p _ => p

/-- How many `OpenFile` invocations the item performed. -/
def RunItem.openCallsOf : RunItem → Nat
  | .preSkipped _ => 0
  | .ran _ rep => rep.openCalls

/-- How many `UploadObject` invocations the item performed. -/
def RunItem.uploadCallsOf : RunItem → Nat
  | .preSkipped _ => 0
  | .ran _ rep => rep.uploadCalls

/-- Whether the item was submitted to the worker pool. -/
def RunItem.submittedToPool : RunItem → Bool
  | .preSkipped _ => false
  | .ran _ _ => true

/-- The accumulated state of `Uploader.Run`: the journal, the atomic
counters, the mutex-collected `uploadErrors` messages, and the trace of
per-file items. -/
structure RunState where
  journal : Journal
  skipped : Nat
  uploaded : Nat
  failedCount : Nat
  uploadErrors : List String
  trace : List RunItem

/-- One iteration of `Run`'s submission loop for one file: if the
journal already marks the path uploaded, count it skipped and do not
submit it; otherwise submit the `uploadFile` task (its effects are the
task's, so the model applies them here) and, on failure, collect the
wrapped error and bump the failure counter. -/
def runStep (cfg : UploadConfig) (env : UpEnv) (rc : RetryConfig) (now : Nat)
    (s : RunState) (file : MediaFile) : RunState :=
  if s.journal.IsUploaded file.path then
    { s with skipped := s.skipped + 1,
             trace := s.trace ++ [.preSkipped file.path] }
  else
    let r := Uploader.uploadFile cfg env rc s.journal file now
    let s1 : RunState :=
      { journal := r.2,
        skipped := s.skipped + r.1.skippedDelta,
        uploaded := s.uploaded + r.1.uploadedDelta,
        failedCount := s.failedCount,
        uploadErrors := s.uploadErrors,
        trace := s.trace ++ [.ran file.path r.1] }
    match r.1.outcome with
    | .failed stage rr =>
      { s1 with failedCount := s1.failedCount + 1,
                uploadErrors := s1.uploadErrors ++
                  ["failed to upload " ++ file.path ++ ": " ++ stage ++ ": " ++
                    rr.render] }
    | _ => s1

/-- `strings.Join(msgs, "\n")`. -/
def joinLines : List String → String
  | [] => ""
  | [m] => m
  | m :: rest => m ++ "\n" ++ joinLines rest

/-- The error-message truncation in `Run`: the first ten messages, then
one "... and N more errors" line. -/
def truncatedErrMsgs (errs : List String) : List String :=
  if errs.length ≤ 10 then errs
  else errs.take 10 ++
    ["... and " ++ toString (errs.length - 10) ++ " more errors"]

/-- The aggregate error text `Run` returns when files failed. -/
def aggregateError (errCount total : Nat) (errs : List String) : String :=
  "upload completed with " ++ toString errCount ++ "/" ++ toString total ++
    " files failed:\n" ++ joinLines (truncatedErrMsgs errs)

/-- `Uploader.Run` over the listed files: the submission loop, the pool
join, and the aggregate error when any file failed. -/
def Uploader.Run (cfg : UploadConfig) (env : UpEnv) (rc : RetryConfig)
    (now : Nat) (j : Journal) (files : List MediaFile) :
    RunState × Option String :=
  let final := files.foldl (runStep cfg env rc now)
    { journal := j, skipped := 0, uploaded := 0, failedCount := 0,
      uploadErrors := [], trace := [] }
  if 0 < final.failedCount then
    (final, some (aggregateError final.failedCount files.length final.uploadErrors))
  else
    (final, none)

/-- Total `OpenFile` invocations a trace performed for path `p`. -/
def traceOpenCalls (tr : List RunItem) (p : String) : Nat :=
  ((tr.filter (fun item => item.pathOf == p)).map RunItem.openCallsOf).sum

/-- Total `UploadObject` invocations a trace performed for path `p`. -/
def traceUploadCalls (tr : List RunItem) (p : String) : Nat :=
  ((tr.filter (fun item => item.pathOf == p)).map RunItem.uploadCallsOf).sum

/-! ### Journal map lemmas -/

/-- Unfolding `mapInsert` over a cons cell. -/
theorem mapInsert_cons (q : String × UploadEntry) (rest : List (String × UploadEntry))
    (k : String) (v : UploadEntry) :
    mapInsert (q :: rest) k v =
      if q.1 = k then mapInsert rest k v else q :: mapInsert rest k v := by
  by_cases h : q.1 = k <;> simp [mapInsert, List.filter_cons, h]

/-- Unfolding `mapLookup` over a cons cell. -/
theorem mapLookup_cons (q : String × UploadEntry) (l : List (String × UploadEntry))
    (p : String) :
    mapLookup (q :: l) p = if q.1 = p then some q.2 else mapLookup l p := by
  by_cases h : q.1 = p <;> simp [mapLookup, List.find?_cons, h]

/-- Inserting key `k` leaves every other key's binding unchanged and sets
`k`'s binding to the inserted value. -/
theorem mapLookup_mapInsert (m : List (String × UploadEntry)) (k p : String)
    (v : UploadEntry) :
    mapLookup (mapInsert m k v) p = if p = k then some v else mapLookup m p := by
  induction m with
  | nil =>
    have hbase : mapInsert [] k v = [(k, v)] := rfl
    rw [hbase, mapLookup_cons]
    by_cases h : p = k
    · rw [if_pos h, if_pos h.symm]
    · rw [if_neg h, if_neg fun hh => h hh.symm]
  | cons q rest ih =>
    rw [mapInsert_cons]
    by_cases hqk : q.1 = k
    · rw [if_pos hqk, ih, mapLookup_cons]
      by_cases h : p = k
      · rw [if_pos h, if_pos h]
      · have hqp : ¬q.1 = p := by
          rw [hqk]
          exact fun hh => h hh.symm
        rw [if_neg h, if_neg h, if_neg hqp]
    · rw [if_neg hqk, mapLookup_cons, mapLookup_cons, ih]
      by_cases hqp : q.1 = p
      · have h : ¬p = k := fun hh => hqk (hqp.trans hh)
        simp only [if_pos hqp, if_neg h]
      · simp only [if_neg hqp]

/-- `MarkUploaded` never unsets an uploaded path: marking any key keeps
`IsUploaded` true for every path that already had it. -/
theorem IsUploaded_MarkUploaded (j : Journal) (p q a : String) (now : Nat)
    (h : j.IsUploaded p = true) :
    ((j.MarkUploaded q a now).1).IsUploaded p = true := by
  have huploads : ((j.MarkUploaded q a now).1).uploads =
      mapInsert j.uploads q ⟨q, true, now, a⟩ := by
    simp only [Journal.MarkUploaded]
    split <;> rfl
  unfold Journal.IsUploaded at h ⊢
  rw [huploads, mapLookup_mapInsert]
  by_cases hpq : p = q
  · simp [hpq]
  · simp only [if_neg hpq]
    exact h

/-! ### Per-file and per-run lemmas -/

/-- Whatever `uploadFile` does, the journal it returns is either the
input journal or the input journal with this file's path marked. -/
theorem uploadFile_journal_cases (cfg : UploadConfig) (env : UpEnv)
    (rc : RetryConfig) (j : Journal) (file : MediaFile) (now : Nat) :
    (Uploader.uploadFile cfg env rc j file now).2 = j ∨
    (Uploader.uploadFile cfg env rc j file now).2 =
      (j.MarkUploaded file.path file.archive now).1 := by
  simp only [Uploader.uploadFile, uploadFileTail]
  repeat' split
  all_goals first
    | exact Or.inl rfl
    | exact Or.inr rfl

/-- `uploadFile` preserves `IsUploaded` for every already-uploaded path. -/
theorem uploadFile_journal_mono (cfg : UploadConfig) (env : UpEnv)
    (rc : RetryConfig) (j : Journal) (file : MediaFile) (now : Nat) (p : String)
    (h : j.IsUploaded p = true) :
    ((Uploader.uploadFile cfg env rc j file now).2).IsUploaded p = true := by
  rcases uploadFile_journal_cases cfg env rc j file now with hc | hc <;> rw [hc]
  · exact h
  · exact IsUploaded_MarkUploaded j p file.path file.archive now h

/-- `runStep` on a journal-marked path: skip, count, no submission. -/
theorem runStep_uploaded (cfg : UploadConfig) (env : UpEnv) (rc : RetryConfig)
    (now : Nat) (s : RunState) (file : MediaFile)
    (hj : s.journal.IsUploaded file.path = true) :
    runStep cfg env rc now s file =
      { s with skipped := s.skipped + 1,
               trace := s.trace ++ [.preSkipped file.path] } := by
  simp [runStep, hj]

/-- `runStep` on a path not in the journal: the file is submitted, the
journal becomes `uploadFile`'s journal, the new trace entry is a `ran`
item, and the skipped counter does not decrease. -/
theorem runStep_not_uploaded (cfg : UploadConfig) (env : UpEnv) (rc : RetryConfig)
    (now : Nat) (s : RunState) (file : MediaFile)
    (hj : s.journal.IsUploaded file.path = false) :
    (runStep cfg env rc now s file).journal =
      (Uploader.uploadFile cfg env rc s.journal file now).2 ∧
    (runStep cfg env rc now s file).trace =
      s.trace ++ [.ran file.path (Uploader.uploadFile cfg env rc s.journal file now).1] ∧
    s.skipped ≤ (runStep cfg env rc now s file).skipped := by
  simp only [runStep, hj, Bool.false_eq_true, if_false]
  split <;> simp

/-- Number of occurrences of path `p` in a file listing. -/
def countPath (files : List MediaFile) (p : String) : Nat :=
  files.countP (fun f => f.path == p)

/-- The submission-loop invariant: if the accumulated journal marks `p`
uploaded, the remaining fold keeps it marked, every new trace item about
`p` is a pre-submission skip, and the skipped counter grows by at least
the number of occurrences of `p`. -/
theorem run_foldl_invariant (cfg : UploadConfig) (env : UpEnv) (rc : RetryConfig)
    (now : Nat) (p : String) (files : List MediaFile) :
    ∀ (s : RunState), s.journal.IsUploaded p = true →
      ((files.foldl (runStep cfg env rc now) s).journal.IsUploaded p = true ∧
       (∃ t', (files.foldl (runStep cfg env rc now) s).trace = s.trace ++ t' ∧
          ∀ item ∈ t', item.pathOf = p → item = .preSkipped p) ∧
       s.skipped + countPath files p ≤
         (files.foldl (runStep cfg env rc now) s).skipped) := by
  induction files with
  | nil =>
    intro s h
    exact ⟨h, ⟨[], by simp, by simp⟩, by simp [countPath]⟩
  | cons file rest ih =>
    intro s h
    rw [List.foldl_cons]
    by_cases hj : s.journal.IsUploaded file.path = true
    · rw [runStep_uploaded cfg env rc now s file hj]
      obtain ⟨h1, ⟨t', ht', hall⟩, h3⟩ :=
        ih { s with skipped := s.skipped + 1,
                    trace := s.trace ++ [.preSkipped file.path] } h
      refine ⟨h1, ⟨.preSkipped file.path :: t', ?_, ?_⟩, ?_⟩
      · rw [ht']
        simp
      · intro item hmem hpath
        rcases List.mem_cons.mp hmem with hmem | hmem
        · subst hmem
          simp only [RunItem.pathOf] at hpath
          rw [hpath]
        · exact hall item hmem hpath
      · have hcons : countPath (file :: rest) p ≤ countPath rest p + 1 := by
          simp only [countPath, List.countP_cons]
          split <;> omega
        dsimp only at h3
        omega
    · have hjf : s.journal.IsUploaded file.path = false := by
        cases hb : s.journal.IsUploaded file.path
        · rfl
        · exact absurd hb hj
      have hfp : file.path ≠ p := by
        intro he
        rw [he] at hjf
        rw [h] at hjf
        exact Bool.true_eq_false.mp hjf
      obtain ⟨hstj, hstt, hsts⟩ := runStep_not_uploaded cfg env rc now s file hjf
      have hmono : (runStep cfg env rc now s file).journal.IsUploaded p = true := by
        rw [hstj]
        exact uploadFile_journal_mono cfg env rc s.journal file now p h
      obtain ⟨h1, ⟨t', ht', hall⟩, h3⟩ := ih _ hmono
      refine ⟨h1, ⟨.ran file.path (Uploader.uploadFile cfg env rc s.journal file now).1 :: t', ?_, ?_⟩, ?_⟩
      · rw [ht', hstt]
        simp
      · intro item hmem hpath
        rcases List.mem_cons.mp hmem with hmem | hmem
        · subst hmem
          simp only [RunItem.pathOf] at hpath
          exact absurd hpath hfp
        · exact hall item hmem hpath
      · have hcnt : countPath (file :: rest) p = countPath rest p := by
          simp [countPath, List.countP_cons, hfp]
        rw [hcnt]
        omega

/-- The state component `Run` returns is the submission-loop fold from
the fresh counters over the initial journal. -/
theorem Run_fst (cfg : UploadConfig) (env : UpEnv) (rc : RetryConfig)
    (now : Nat) (j : Journal) (files : List MediaFile) :
    (Uploader.Run cfg env rc now j files).1 =
      files.foldl (runStep cfg env rc now)
        { journal := j, skipped := 0, uploaded := 0, failedCount := 0,
          uploadErrors := [], trace := [] } := by
  simp only [Uploader.Run]
  split <;> rfl

/-- A trace whose items about `p` are all pre-submission skips performs
zero `OpenFile` and zero `UploadObject` invocations for `p`. -/
theorem traceCalls_zero (tr : List RunItem) (p : String)
    (h : ∀ item ∈ tr, item.pathOf = p → item = .preSkipped p) :
    traceOpenCalls tr p = 0 ∧ traceUploadCalls tr p = 0 := by
  constructor
  · apply List.sum_eq_zero
    intro x hx
    simp only [traceOpenCalls, List.mem_map, List.mem_filter] at hx
    obtain ⟨item, ⟨hmem, hpath⟩, hval⟩ := hx
    have := h item hmem (by simpa using hpath)
    rw [this] at hval
    simpa [RunItem.openCallsOf] using hval.symm
  · apply List.sum_eq_zero
    intro x hx
    simp only [traceUploadCalls, List.mem_map, List.mem_filter] at hx
    obtain ⟨item, ⟨hmem, hpath⟩, hval⟩ := hx
    have := h item hmem (by simpa using hpath)
    rw [this] at hval
    simpa [RunItem.uploadCallsOf] using hval.symm

/-- C3: for every path whose journal entry is uploaded before the run
starts, the run performs zero `OpenFile` and zero `UploadObject`
invocations for that path, every trace item about the path is the
pre-submission skip (so the path is never submitted to the worker pool),
and the skipped counter is incremented for each of its occurrences. -/
theorem run_journaled_path_skipped (cfg : UploadConfig) (env : UpEnv)
    (rc : RetryConfig) (now : Nat) (j : Journal) (files : List MediaFile)
    (p : String) (h : j.IsUploaded p = true) :
    (∀ item ∈ (Uploader.Run cfg env rc now j files).1.trace,
        item.pathOf = p → item = .preSkipped p) ∧
    traceOpenCalls (Uploader.Run cfg env rc now j files).1.trace p = 0 ∧
    traceUploadCalls (Uploader.Run cfg env rc now j files).1.trace p = 0 ∧
    (∀ item ∈ (Uploader.Run cfg env rc now j files).1.trace,
        item.pathOf = p → item.submittedToPool = false) ∧
    countPath files p ≤ (Uploader.Run cfg env rc now j files).1.skipped := by
  rw [Run_fst]
  obtain ⟨h1, ⟨t', ht', hall⟩, h3⟩ :=
    run_foldl_invariant cfg env rc now p files
      { journal := j, skipped := 0, uploaded := 0, failedCount := 0,
        uploadErrors := [], trace := [] } h
  have htr : ∀ item ∈ (files.foldl (runStep cfg env rc now)
        { journal := j, skipped := 0, uploaded := 0, failedCount := 0,
          uploadErrors := [], trace := [] }).trace,
      item.pathOf = p → item = .preSkipped p := by
    intro item hmem hpath
    rw [ht'] at hmem
    simp only [List.nil_append] at hmem
    exact hall item hmem hpath
  obtain ⟨hopen, hupload⟩ := traceCalls_zero _ p htr
  refine ⟨htr, hopen, hupload, ?_, ?_⟩
  · intro item hmem hpath
    rw [htr item hmem hpath]
    rfl
  · simpa using h3

/-! ### Concrete uploader inputs -/

/-- `SkipExisting` on, no dry run, metadata preserved. -/
def cfgSkip : UploadConfig := ⟨true, false, true⟩

/-- A concrete media file. -/
def fileA : MediaFile := ⟨"photos/a.jpg", "takeout-1.zip", 1024, none⟩

/-- A concrete media file whose path is journal-marked in `jMarked`. -/
def fileB : MediaFile := ⟨"photos/b.jpg", "takeout-1.zip", 2048, none⟩

/-- Collaborators for which every object already exists remotely and
every operation succeeds. -/
def envExists : UpEnv :=
  { objectExists := fun _ _ => (true, none)
    openFile := fun _ _ => none
    uploadObject := fun _ _ _ _ _ => none
    getMetadata := fun _ => none
    fileCtx := fun _ => ctxLive }

/-- A journal that already marks `photos/b.jpg` uploaded. -/
def jMarked : Journal :=
  { muLocked := false
    uploads := [("photos/b.jpg", ⟨"photos/b.jpg", true, 5, "takeout-1.zip"⟩)]
    lastSaveTime := 0
    saveInterval := 30
    batchCount := 1 }

/-- Witness for C3 at a concrete run: the journal marks `photos/b.jpg`
before the run over `[fileB, fileA]`, and the claim theorem applied there
gives that every trace item about the path is the pre-submission skip,
zero open and upload calls were made for it, it was never submitted to
the pool, and the skipped counter covers its occurrence. -/
theorem run_journaled_path_skipped_witness :
    jMarked.IsUploaded "photos/b.jpg" = true ∧
    (traceOpenCalls (Uploader.Run cfgSkip envExists rcK1 7 jMarked
        [fileB, fileA]).1.trace "photos/b.jpg" = 0 ∧
     traceUploadCalls (Uploader.Run cfgSkip envExists rcK1 7 jMarked
        [fileB, fileA]).1.trace "photos/b.jpg" = 0) ∧
    countPath [fileB, fileA] "photos/b.jpg" ≤
      (Uploader.Run cfgSkip envExists rcK1 7 jMarked [fileB, fileA]).1.skipped := by
  have hj : jMarked.IsUploaded "photos/b.jpg" = true := by decide
  have h := run_journaled_path_skipped cfgSkip envExists rcK1 7 jMarked
    [fileB, fileA] "photos/b.jpg" hj
  exact ⟨hj, ⟨h.2.1, h.2.2.1⟩, h.2.2.2.2⟩

/-- C5 counterexample: with skip-existing configured and the remote
existence check reporting that `photos/a.jpg` exists, `uploadFile`'s
outcome is skipped but the journal is NOT marked uploaded for the path —
it is returned unchanged and `IsUploaded` stays false — contradicting
the claim that the journal is additionally marked. -/
theorem skip_existing_no_mark_counterexample :
    (Uploader.uploadFile cfgSkip envExists rcK1 Journal.new fileA 0).1.outcome =
      .skippedExisting ∧
    (Uploader.uploadFile cfgSkip envExists rcK1 Journal.new fileA 0).2 =
      Journal.new ∧
    Journal.IsUploaded
      (Uploader.uploadFile cfgSkip envExists rcK1 Journal.new fileA 0).2
      "photos/a.jpg" = false := by
  refine ⟨?_, ?_, ?_⟩ <;> decide

/-- C5 (amended): with skip-existing configured, when the retried remote
existence check succeeds and reports that the object exists, the file's
outcome is skipped and the skipped counter is incremented, no open or
upload call is performed — but the journal is returned untouched (not
marked uploaded), so a later run will re-check the remote store for this
path. -/
theorem skip_existing_skips_without_marking (cfg : UploadConfig) (env : UpEnv)
    (rc : RetryConfig) (j : Journal) (file : MediaFile) (now : Nat) (n : Nat)
    (hskip : cfg.skipExisting = true)
    (hok : RetryWithBackoff (env.fileCtx file.path)
        ("Check existence of " ++ file.path)
        (fun i => (env.objectExists file.path i).2) rc = (.ok, n))
    (hex : (env.objectExists file.path (n - 1)).1 = true) :
    (Uploader.uploadFile cfg env rc j file now).1.outcome = .skippedExisting ∧
    (Uploader.uploadFile cfg env rc j file now).1.skippedDelta = 1 ∧
    (Uploader.uploadFile cfg env rc j file now).1.openCalls = 0 ∧
    (Uploader.uploadFile cfg env rc j file now).1.uploadCalls = 0 ∧
    (Uploader.uploadFile cfg env rc j file now).2 = j := by
  simp only [Uploader.uploadFile, hskip, if_true, hok, hex]
  simp

/-- Witness for C5's amended theorem at the concrete inputs: the
existence check returns ok after one invocation reporting the object
exists, and the file is skipped with the journal unchanged. -/
theorem skip_existing_skips_without_marking_witness :
    (Uploader.uploadFile cfgSkip envExists rcK1 jMarked fileA 3).1.skippedDelta = 1 ∧
    (Uploader.uploadFile cfgSkip envExists rcK1 jMarked fileA 3).2 = jMarked := by
  have h := skip_existing_skips_without_marking cfgSkip envExists rcK1 jMarked
    fileA 3 1 rfl (by decide) rfl
  exact ⟨h.2.1, h.2.2.2.2⟩

/-! ## Multi-archive scheduler (pkg/cli root.go, multi-archive version)

Contexts as a derivation tree: each context node records its identifier
and the identifiers of its ancestors, so "descendant of" and "cancel
propagates to" are decidable lookups. `runUpload` is embedded over the
per-archive processing outcomes; the semaphore bound and the WaitGroup
join are honest here (`wg.Add(1)` before each goroutine, `wg.Done()` in
its defer), so the sequential fold processes every archive before the
function computes its return value. -/

/-- A `context.Context` as a node of the derivation tree. -/
structure CtxNode where
  id : Nat
  ancestorIds : List Nat
deriving DecidableEq

/-- `context.Background()`. -/
def contextBackground : CtxNode := ⟨0, []⟩

/-- `context.WithCancel(parent)` (the fresh node gets `newId`). -/
def contextWithCancel (parent : CtxNode) (newId : Nat) : CtxNode :=
  ⟨newId, parent.id :: parent.ancestorIds⟩

/-- `context.WithTimeout(parent, d)` (the fresh node gets `newId`). -/
def contextWithTimeout (parent : CtxNode) (newId : Nat) : CtxNode :=
  ⟨newId, parent.id :: parent.ancestorIds⟩

/-- The root context of a run: `Execute()` does
`ctx, cancel := context.WithCancel(context.Background())`. -/
def rootCtx : CtxNode := contextWithCancel contextBackground 1

/-- The context of archive `k` as `runUpload` creates it:
`archiveCtx, archiveCancel := context.WithCancel(context.Background())`
— from `context.Background()`, not from the run's context. -/
def archiveCtxOf (k : Nat) : CtxNode := contextWithCancel contextBackground (2 + k)

/-- Modelled from the spec: the archive context as §4.5 words it —
"derive an archive-scoped cancellable context (... cancelled if the
top-level run is cancelled)", i.e. derived from the root context. Stated
only to be compared with `archiveCtxOf`, which is translated from the
source. -/
def specArchiveCtxOf (k : Nat) : CtxNode := contextWithCancel rootCtx (2 + k)

/-- The per-file context inside archive `k` for file index `m`:
`uploader.Run` does `context.WithTimeout(u.ctx, 30*time.Minute)` where
`u.ctx` is the archive's context. The fresh identifier `3 + k + m` never
collides with the background (0) or root (1) identifiers. -/
def fileCtxOf (k m : Nat) : CtxNode :=
  contextWithTimeout (archiveCtxOf k) (3 + k + m)

/-- Whether `c` is a descendant of `p` in the context tree. -/
def isDescendantOf (c p : CtxNode) : Bool :=
  c.ancestorIds.contains p.id

/-- Whether cancelling `cancelled` cancels `c`: cancellation reaches a
context and all of its descendants. -/
def cancelReaches (cancelled c : CtxNode) : Bool :=
  c.id == cancelled.id || c.ancestorIds.contains cancelled.id

/-- The per-archive processing outcomes, as oracles indexed by the
archive's position: the S3 client construction error, the takeout
adapter construction error, and the result of `up.Run()` (an error
message or nil). -/
structure SchedulerEnv where
  s3InitErr : Nat → Option GoErr
  takeoutInitErr : Nat → Option GoErr
  runResult : Nat → Option String

/-- The body of one archive goroutine in `runUpload`, producing the
error it appends to `uploadErrors` (or `none`): S3 client init, takeout
adapter init, then `up.Run()`, each wrapped with its `fmt.Errorf` text. -/
def processArchive (env : SchedulerEnv) (idx : Nat) (path : String) :
    Option String :=
  match env.s3InitErr idx with
  | some e =>
    some ("failed to initialize S3 client for archive " ++ path ++ ": " ++ e.message)
  | none =>
    match env.takeoutInitErr idx with
    | some e =>
      some ("failed to process takeout at " ++ path ++ ": " ++ e.message)
    | none =>
      match env.runResult idx with
      | some msg => some ("upload failed for " ++ path ++ ": " ++ msg)
      | none => none

/-- The value `runUpload` returns after `wg.Wait()`: the source's final
branch reads `if len(uploadErrors) > 0 { ...log each error...; return nil }
return nil` — both paths return nil. -/
def schedulerReturn (uploadErrors : List String) : Option String :=
  if 0 < uploadErrors.length then
    none
  else
    none

/-- `runUpload` over already-expanded archive paths (the literal-path
branch; glob and directory expansion happen before the per-archive
loop): every archive is processed (the WaitGroup join in the source
blocks until each goroutine has run to completion and released its
semaphore slot), its error — if any — is collected into `uploadErrors`,
and the function returns `schedulerReturn uploadErrors`. The result is
(returned error, collected uploadErrors, archives processed). -/
def runUpload (env : SchedulerEnv) (args : List String) :
    Option String × List String × Nat :=
  let uploadErrors :=
    (args.enum.map (fun pr => processArchive env pr.1 pr.2)).filterMap id
  (schedulerReturn uploadErrors, uploadErrors, args.length)

/-- C2 counterexample: a run of one archive whose processing reports an
error — `runUpload` collects the aggregate error into `uploadErrors`,
yet returns nil (no error), contradicting the claim that it returns a
non-nil aggregate error when some archive reported one. -/
theorem scheduler_returns_nil_counterexample :
    (runUpload ⟨fun _ => none, fun _ => none,
        fun _ => some "upload completed with 1/2 files failed"⟩
      ["takeout-1.zip"]).2.1 =
      ["upload failed for takeout-1.zip: upload completed with 1/2 files failed"] ∧
    (runUpload ⟨fun _ => none, fun _ => none,
        fun _ => some "upload completed with 1/2 files failed"⟩
      ["takeout-1.zip"]).2.1 ≠ [] ∧
    (runUpload ⟨fun _ => none, fun _ => none,
        fun _ => some "upload completed with 1/2 files failed"⟩
      ["takeout-1.zip"]).1 = none := by
  refine ⟨?_, ?_, ?_⟩ <;> decide

/-- C2 (amended): the scheduler waits for every archive to finish before
returning — all `args.length` archives are processed and their errors
collected into `uploadErrors` — but it then returns nil whether or not
any archive reported an error; archive errors are only logged. -/
theorem scheduler_waits_but_returns_nil (env : SchedulerEnv) (args : List String) :
    (runUpload env args).2.2 = args.length ∧
    (runUpload env args).1 = none := by
  constructor
  · rfl
  · simp only [runUpload, schedulerReturn]
    split <;> rfl

/-- C8 counterexample: archive 0's context, created by the source from
`context.Background()`, is not a descendant of the root context and
cancelling the root context does not reach it (nor its file contexts) —
while the spec-modelled archive context, derived from the root, is a
descendant. -/
theorem archive_ctx_independent_counterexample :
    isDescendantOf (archiveCtxOf 0) rootCtx = false ∧
    cancelReaches rootCtx (archiveCtxOf 0) = false ∧
    cancelReaches rootCtx (fileCtxOf 0 100) = false ∧
    isDescendantOf (specArchiveCtxOf 0) rootCtx = true := by
  refine ⟨?_, ?_, ?_, ?_⟩ <;> decide

/-- C8 (amended): every archive context is created from
`context.Background()` — its only ancestor is the background context —
so it is not a descendant of the root context and cancelling the root
context reaches neither it nor any per-file context derived from it;
file contexts are descendants of their archive's context only. -/
theorem archive_ctx_independent (k m : Nat) :
    (archiveCtxOf k).ancestorIds = [contextBackground.id] ∧
    isDescendantOf (archiveCtxOf k) rootCtx = false ∧
    cancelReaches rootCtx (archiveCtxOf k) = false ∧
    cancelReaches rootCtx (fileCtxOf k m) = false ∧
    isDescendantOf (fileCtxOf k m) (archiveCtxOf k) = true := by
  refine ⟨rfl, ?_, ?_, ?_, ?_⟩
  · simp [isDescendantOf, archiveCtxOf, contextWithCancel, rootCtx, contextBackground]
  · simp [cancelReaches, archiveCtxOf, contextWithCancel, rootCtx, contextBackground]
    omega
  · simp [cancelReaches, fileCtxOf, contextWithTimeout, archiveCtxOf,
      contextWithCancel, rootCtx, contextBackground]
    omega
  · simp [isDescendantOf, fileCtxOf, contextWithTimeout, archiveCtxOf,
      contextWithCancel, contextBackground]

end GTS3
